import Mathlib

/-
Verification of the discrete feedback/observer designer.

The development shallowly embeds the numeric pipeline of the repository:
time-domain requirement reconciliation (requirements.py), the s-plane to
z-plane pole map (poles.py), the continuous-to-discrete model conversion
(model.py), the shared design state (value_exchange.py), and the
controllability / observability analysis with pole-placement feedback gain
synthesis (results.py).

Double-precision values are modeled by real numbers, with arithmetic exact.
A Python expression that raises (ZeroDivisionError, AttributeError,
ValueError) is modeled by an Option-valued function returning none.
-/

namespace FeedbackObserver

open Matrix Polynomial

/-! ## poles.py -/

/-- Embeds calcPoles (poles.py, lines 34-59): the z-poles computed from the
s-poles and sample time, z_sigma = exp(s_sigma*T)*cos(s_wd*T) and
z_wd = exp(s_sigma*T)*sin(s_wd*T). -/
noncomputable def calcPoles (s_sigma s_wd T : ℝ) : ℝ × ℝ :=
  (Real.exp (s_sigma * T) * Real.cos (s_wd * T),
   Real.exp (s_sigma * T) * Real.sin (s_wd * T))

/-! ## value_exchange.py -/

/-- Values held by the dynamically typed attributes of the ValueExchange
store: either a raw widget text (a Python str) or a parsed number. -/
inductive PyVal where
  | str : String → PyVal
  | num : ℝ → PyVal

/-- Embeds the pole-related attributes of the ValueExchange class
(value_exchange.py, lines 24-68): sigma, wd (requirements) and z_sigma,
z_wd, T (poles).  The model attributes F, g, c, d are dimension-indexed and
are modeled by the values returned from calcModel instead. -/
structure ValueExchange where
  sigma : PyVal
  wd : PyVal
  z_sigma : PyVal
  z_wd : PyVal
  T : PyVal

/-- Embeds ValueExchange.setPoles (value_exchange.py, lines 105-125):
overwrites the three pole attributes. -/
def ValueExchange.setPoles (ve : ValueExchange) (z_sigma z_wd T : PyVal) :
    ValueExchange :=
  { ve with z_sigma := z_sigma, z_wd := z_wd, T := T }

/-- Embeds ValueExchange.getPoles (value_exchange.py, lines 127-144):
returns the three pole attributes unchanged. -/
def ValueExchange.getPoles (ve : ValueExchange) : PyVal × PyVal × PyVal :=
  (ve.z_sigma, ve.z_wd, ve.T)

/-- Embeds the module-level instance valueExchange (value_exchange.py,
lines 222-227), whose scalar attributes start at the number 0. -/
def initValueExchange : ValueExchange :=
  { sigma := PyVal.num 0, wd := PyVal.num 0, z_sigma := PyVal.num 0,
    z_wd := PyVal.num 0, T := PyVal.num 0 }

/-- Embeds readZPoles (poles.py, lines 61-84): the entry texts are read with
the widget get method and handed to setPoles without any float conversion,
so the store receives the raw strings. -/
def readZPoles (z_sigma_text z_wd_text T_text : String) (ve : ValueExchange) :
    ValueExchange :=
  ve.setPoles (PyVal.str z_sigma_text) (PyVal.str z_wd_text) (PyVal.str T_text)

/-- Embeds clearPoles (poles.py, lines 86-107): stores the numbers 0, 0 and
the given sample time. -/
def clearPoles (T : ℝ) (ve : ValueExchange) : ValueExchange :=
  ve.setPoles (PyVal.num 0) (PyVal.num 0) (PyVal.num T)

/-- Embeds readPoles (poles.py, lines 134-160): parses the three entry texts
with float(...).  The parse function is a parameter; none models the
ValueError raised on malformed text. -/
def readPoles (parseFloat : String → Option ℝ)
    (s_sigma_text s_wd_text T_text : String) : Option (ℝ × ℝ × ℝ) := do
  let s_sigma ← parseFloat s_sigma_text
  let s_wd ← parseFloat s_wd_text
  let T ← parseFloat T_text
  pure (s_sigma, s_wd, T)

/-- Embeds processPoles (poles.py, lines 162-195): reads and parses the
s-poles and sample time, clears the stored poles, computes the z-poles with
calcPoles and stores them as numbers. -/
noncomputable def processPoles (parseFloat : String → Option ℝ)
    (s_sigma_text s_wd_text T_text : String) (ve : ValueExchange) :
    Option ValueExchange := do
  let (s_sigma, s_wd, T) ← readPoles parseFloat s_sigma_text s_wd_text T_text
  let ve1 := clearPoles T ve
  let (z_sigma, z_wd) := calcPoles s_sigma s_wd T
  pure (ve1.setPoles (PyVal.num z_sigma) (PyVal.num z_wd) (PyVal.num T))

/-! ## requirements.py -/

/-- Python float division: raises ZeroDivisionError (modeled as none) when
the denominator is zero. -/
noncomputable def pydiv (a b : ℝ) : Option ℝ :=
  if b = 0 then none else some (a / b)

/-- Embeds steps 1-4 of calcRequirements (requirements.py, lines 74-87):
the four guarded derivations run in source order on the mutable local
variables; the returned tuple holds the values of wn, zeta, sigma, wd after
step 4.  Divisions go through pydiv, so an unguarded division by zero
(sigma1/zeta when zeta is 0, or sigma1/wn1 when wn1 is 0) yields none. -/
noncomputable def calcReqSteps14 (wn zeta ts tp wd sigma : ℝ) :
    Option (ℝ × ℝ × ℝ × ℝ) := do
  let sigma1 ← if ts ≠ 0 ∧ sigma = 0 then pydiv 4 ts else pure sigma
  let wd1 ← if tp ≠ 0 ∧ wd = 0 then pydiv Real.pi tp else pure wd
  let wn1 ← if wn = 0 ∧ sigma1 ≠ 0 then pydiv sigma1 zeta else pure wn
  let zeta1 ← if zeta = 0 ∧ sigma1 ≠ 0 then pydiv sigma1 wn1 else pure zeta
  pure (wn1, zeta1, sigma1, wd1)

/-- Embeds calcRequirements (requirements.py, lines 34-96).  The input tuple
is (wn, zeta, ts, tr, tp, wd, sigma), unentered values being zero; the
output tuple has the same layout.  Step 5 (lines 89-94) recomputes sigma,
wd, ts, tp, tr whenever wn and zeta are both nonzero after steps 1-4.  Its
divisions ts = 4/sigma and tr = 1.8/wn act on plain Python floats and go
through pydiv, but wd is the np.float64 produced by np.sqrt, and numpy
scalar division tp = np.pi/wd never raises: on a zero or nan denominator it
returns inf or nan with a RuntimeWarning, so that division is modeled as
total real division (the inf/nan values themselves lie outside this
real-number model, as does np.sqrt of a negative argument, which yields
nan where the real square root is zero). -/
noncomputable def calcRequirements (req : ℝ × ℝ × ℝ × ℝ × ℝ × ℝ × ℝ) :
    Option (ℝ × ℝ × ℝ × ℝ × ℝ × ℝ × ℝ) := do
  let (wn, zeta, ts, tr, tp, wd, sigma) := req
  let (wn1, zeta1, sigma1, wd1) ← calcReqSteps14 wn zeta ts tp wd sigma
  if wn1 ≠ 0 ∧ zeta1 ≠ 0 then do
    let sigma2 := zeta1 * wn1
    let wd2 := wn1 * Real.sqrt (1 - zeta1 ^ 2)
    let ts2 ← pydiv 4 sigma2
    let tp2 := Real.pi / wd2
    let tr2 ← pydiv 1.8 wn1
    pure (wn1, zeta1, ts2, tr2, tp2, wd2, sigma2)
  else
    pure (wn1, zeta1, ts, tr, tp, wd1, sigma1)

/-! ## model.py -/

/-- Embeds calcDisc (model.py, lines 112-153): F = I + AT + (1/2)(AT)(AT),
psi = I + (1/2)AT + (1/6)(AT)(AT), g = T(psi b); c and d are returned
unchanged. -/
noncomputable def calcDisc {n : ℕ} (A : Matrix (Fin n) (Fin n) ℝ) (b : Matrix (Fin n) (Fin 1) ℝ)
    (c : Matrix (Fin 1) (Fin n) ℝ) (d : ℝ) (T : ℝ) :
    Matrix (Fin n) (Fin n) ℝ × Matrix (Fin n) (Fin 1) ℝ ×
      Matrix (Fin 1) (Fin n) ℝ × ℝ :=
  let F := 1 + T • A + (1 / 2 : ℝ) • ((T • A) * (T • A))
  let psi := 1 + (1 / 2 : ℝ) • (T • A) + (1 / 6 : ℝ) • ((T • A) * (T • A))
  let g := T • (psi * b)
  (F, g, c, d)

/-- Dynamically typed slots of the disc_entries / cont_entries lists built in
spaceInputs (model.py, lines 340-342): three widget grids of different
shapes plus the lone d entry widget.  The held values are the parsed cell
contents. -/
inductive EntryVal (n : ℕ) where
  | gridNN : Matrix (Fin n) (Fin n) ℝ → EntryVal n
  | gridN1 : Matrix (Fin n) (Fin 1) ℝ → EntryVal n
  | grid1N : Matrix (Fin 1) (Fin n) ℝ → EntryVal n
  | single : ℝ → EntryVal n

/-- Models float(e.get()): succeeds only on a lone entry widget; calling get
on a numpy array of widgets raises AttributeError (none). -/
def EntryVal.getSingle {n : ℕ} : EntryVal n → Option ℝ
  | .single v => some v
  | _ => none

/-- Models the loop reading every cell e[r,col].get() of an n-by-n widget
grid; subscripting any other slot kind raises (none). -/
def EntryVal.cellsNN {n : ℕ} : EntryVal n → Option (Matrix (Fin n) (Fin n) ℝ)
  | .gridNN v => some v
  | _ => none

/-- Models the loop reading every cell e[r,0].get() of an n-by-1 widget
grid; subscripting any other slot kind raises (none). -/
def EntryVal.cellsN1 {n : ℕ} : EntryVal n → Option (Matrix (Fin n) (Fin 1) ℝ)
  | .gridN1 v => some v
  | _ => none

/-- Models the loop reading every cell e[0,r].get() of a 1-by-n widget
grid; subscripting any other slot kind raises (none). -/
def EntryVal.cells1N {n : ℕ} : EntryVal n → Option (Matrix (Fin 1) (Fin n) ℝ)
  | .grid1N v => some v
  | _ => none

/-- The disc_entries list [e_F, e_g, e_c, e_d] as grouped in spaceInputs
(model.py, line 342), holding the values typed into the discrete entry
fields. -/
def discEntries {n : ℕ} (F : Matrix (Fin n) (Fin n) ℝ) (g : Matrix (Fin n) (Fin 1) ℝ)
    (c : Matrix (Fin 1) (Fin n) ℝ) (d : ℝ) : Fin 4 → EntryVal n :=
  ![EntryVal.gridNN F, EntryVal.gridN1 g, EntryVal.grid1N c, EntryVal.single d]

/-- Embeds readDisc (model.py, lines 156-198).  The source assigns
e_c = disc_entries[3] (line 182) and e_d = disc_entries[0] (line 183), so d
is read with float(disc_entries[0].get()) and c from the cells of
disc_entries[3]; the evaluation order (d first, then the loop) follows the
source. -/
def readDisc {n : ℕ} (disc_entries : Fin 4 → EntryVal n) :
    Option (Matrix (Fin n) (Fin n) ℝ × Matrix (Fin n) (Fin 1) ℝ ×
      Matrix (Fin 1) (Fin n) ℝ × ℝ) := do
  let e_F := disc_entries 0
  let e_g := disc_entries 1
  let e_c := disc_entries 3
  let e_d := disc_entries 0
  let d ← e_d.getSingle
  let g ← e_g.cellsN1
  let c ← e_c.cells1N
  let F ← e_F.cellsNN
  pure (F, g, c, d)

/-- Embeds readCont (model.py, lines 68-110): reads d from cont_entries[3]
and the A, b, c matrices from cont_entries[0], cont_entries[1],
cont_entries[2]. -/
def readCont {n : ℕ} (cont_entries : Fin 4 → EntryVal n) :
    Option (Matrix (Fin n) (Fin n) ℝ × Matrix (Fin n) (Fin 1) ℝ ×
      Matrix (Fin 1) (Fin n) ℝ × ℝ) := do
  let e_A := cont_entries 0
  let e_b := cont_entries 1
  let e_c := cont_entries 2
  let e_d := cont_entries 3
  let d ← e_d.getSingle
  let b ← e_b.cellsN1
  let c ← e_c.cells1N
  let A ← e_A.cellsNN
  pure (A, b, c, d)

/-- Embeds calcModel (model.py, lines 201-240): radio value 2 reads the
continuous model and discretizes it, radio value 1 reads the discrete model
with readDisc; the resulting value is published with setModel and is the
value returned here.  Any other radio value leaves disc_val unbound
(NameError, modeled as none). -/
noncomputable def calcModel {n : ℕ} (v : ℕ) (cont_entries disc_entries : Fin 4 → EntryVal n)
    (T : ℝ) :
    Option (Matrix (Fin n) (Fin n) ℝ × Matrix (Fin n) (Fin 1) ℝ ×
      Matrix (Fin 1) (Fin n) ℝ × ℝ) := do
  let disc_val ←
    if v = 2 then do
      let (A, b, c, d) ← readCont cont_entries
      pure (calcDisc A b c d T)
    else if v = 1 then
      readDisc disc_entries
    else
      none
  pure disc_val

/-! ## results.py -/

/-- Embeds the repeated-multiplication loop of checkContr and checkObs
(results.py, lines 151-155 and 247-251): starting from F, multiply by F m
times, so powLoop F m is the (m+1)-st power of F. -/
def powLoop {n : ℕ} (F : Matrix (Fin n) (Fin n) ℝ) : ℕ → Matrix (Fin n) (Fin n) ℝ
  | 0 => F
  | m + 1 => powLoop F m * F

/-- Embeds the controllability-matrix construction of checkContr
(results.py, lines 143-160): column 0 holds g, column i (for i from 1)
holds the product of the i-th repeated power of F with g. -/
def buildU {n : ℕ} (F : Matrix (Fin n) (Fin n) ℝ) (g : Matrix (Fin n) (Fin 1) ℝ) :
    Matrix (Fin n) (Fin n) ℝ :=
  Matrix.of fun j i =>
    if (i : ℕ) = 0 then g j 0 else (powLoop F ((i : ℕ) - 1) * g) j 0

/-- Embeds the observability-matrix construction of checkObs (results.py,
lines 240-256): row 0 holds c, row i (for i from 1) holds the product of c
with the i-th repeated power of F. -/
def buildV {n : ℕ} (F : Matrix (Fin n) (Fin n) ℝ) (c : Matrix (Fin 1) (Fin n) ℝ) :
    Matrix (Fin n) (Fin n) ℝ :=
  Matrix.of fun i j =>
    if (i : ℕ) = 0 then c 0 j else (c * powLoop F ((i : ℕ) - 1)) 0 j

/-- Coefficient of z to the i in the symbolic open-loop characteristic
equation ol_eqn = det(z I - F) of calcK (results.py, lines 77-83); the
source stores alpha[dim-1-i] = ol_eqn.coeff(z, i). -/
noncomputable def alphaCoeff {n : ℕ} (F : Matrix (Fin n) (Fin n) ℝ) (i : ℕ) : ℝ :=
  (Matrix.charpoly F).coeff i

/-- Embeds the symbolic closed-loop equation of calcK (results.py, line 86):
cl_eqn = (z - z_sigma - I z_wd)(z - z_sigma + I z_wd), a polynomial over the
complex numbers. -/
noncomputable def cl_eqn (z_sigma z_wd : ℝ) : Polynomial ℂ :=
  (X - C (z_sigma : ℂ) - C (Complex.I * (z_wd : ℂ))) *
    (X - C (z_sigma : ℂ) + C (Complex.I * (z_wd : ℂ)))

/-- Coefficient of z to the i of cl_eqn as stored into the float array
(results.py, lines 91-94, a[dim-1-i] = cl_eqn.coeff(z, i)); the stored
double is the real part, the imaginary part of every coefficient being
zero. -/
noncomputable def aCoeff (z_sigma z_wd : ℝ) (i : ℕ) : ℝ :=
  ((cl_eqn z_sigma z_wd).coeff i).re

/-- Embeds calcK (results.py, lines 34-111).  With the index bookkeeping of
the source unwound (a[dim-1-i] holds the coefficient of z to the i):
k_c[0,i] is the closed-loop minus open-loop coefficient of z to the i
(line 94); U_c[i,j] is alpha[dim-2-j-i] = the open-loop coefficient of z to
the (j+i+1) below the antidiagonal and 1 on it (lines 100-105); P = U U_c
(line 108) and k = k_c P^(-1) (line 109). -/
noncomputable def calcK {n : ℕ} (F : Matrix (Fin n) (Fin n) ℝ) (z_sigma z_wd : ℝ)
    (U : Matrix (Fin n) (Fin n) ℝ) :
    Matrix (Fin 1) (Fin n) ℝ × Matrix (Fin 1) (Fin n) ℝ ×
      Matrix (Fin n) (Fin n) ℝ :=
  let k_c : Matrix (Fin 1) (Fin n) ℝ :=
    Matrix.of fun _ i => aCoeff z_sigma z_wd (i : ℕ) - alphaCoeff F (i : ℕ)
  let U_c : Matrix (Fin n) (Fin n) ℝ :=
    Matrix.of fun i j =>
      if (j : ℕ) < n - (i : ℕ) - 1 then alphaCoeff F ((j : ℕ) + (i : ℕ) + 1)
      else if (j : ℕ) = n - (i : ℕ) - 1 then 1 else 0
  let P := U * U_c
  (k_c * P⁻¹, k_c, P)

/-- Embeds checkContr (results.py, lines 113-171): builds U, takes its
determinant, and either computes the gain with calcK or (printing that the
system is not controllable) yields no gain; the source binds k, k_c, P to
the plain scalars 0 in that branch, modeled here as none. -/
noncomputable def checkContr {n : ℕ} (F : Matrix (Fin n) (Fin n) ℝ)
    (g : Matrix (Fin n) (Fin 1) ℝ) (z_sigma z_wd : ℝ) :
    Option (Matrix (Fin 1) (Fin n) ℝ × Matrix (Fin 1) (Fin n) ℝ ×
      Matrix (Fin n) (Fin n) ℝ) × ℝ :=
  let U := buildU F g
  let detU := U.det
  if ¬detU = 0 then (some (calcK F z_sigma z_wd U), detU)
  else (none, detU)

/-- Embeds the stub calcM (results.py, lines 173-209): prints that the
function is not yet implemented and returns the fixed dummy 2-by-1 arrays
[[1],[1]] and [[2],[2]] whatever the inputs. -/
def calcM {n : ℕ} (_F : Matrix (Fin n) (Fin n) ℝ) (_g : Matrix (Fin n) (Fin 1) ℝ)
    (_c : Matrix (Fin 1) (Fin n) ℝ) (_d : ℝ) (_z_sigma _z_wd : ℝ)
    (_V : Matrix (Fin n) (Fin n) ℝ) :
    Matrix (Fin 2) (Fin 1) ℝ × Matrix (Fin 2) (Fin 1) ℝ :=
  (!![1; 1], !![2; 2])

/-- Embeds checkObs (results.py, lines 211-267): builds V and takes its
determinant.  When det V is nonzero it returns the calcM stub values with
det V.  When det V is zero the source prints the diagnostic and then
executes the statement binding [mc, mp] to the three-element list
[0, 0, 0], which raises ValueError (too many values to unpack); the raise
is modeled as none. -/
noncomputable def checkObs {n : ℕ} (F : Matrix (Fin n) (Fin n) ℝ)
    (g : Matrix (Fin n) (Fin 1) ℝ) (c : Matrix (Fin 1) (Fin n) ℝ) (d : ℝ)
    (z_sigma z_wd : ℝ) :
    Option (Matrix (Fin 2) (Fin 1) ℝ × Matrix (Fin 2) (Fin 1) ℝ × ℝ) :=
  let V := buildV F c
  let detV := V.det
  if ¬detV = 0 then
    let mm := calcM F g c d z_sigma z_wd V
    some (mm.1, mm.2, detV)
  else
    none

end FeedbackObserver

namespace FeedbackObserver

/-! ## Helper lemmas -/

theorem powLoop_eq_pow {n : ℕ} (F : Matrix (Fin n) (Fin n) ℝ) (m : ℕ) :
    powLoop F m = F ^ (m + 1) := by
  induction m with
  | zero => simp [powLoop]
  | succ m ih => rw [powLoop, ih]; exact (pow_succ F (m + 1)).symm

theorem buildU_apply {n : ℕ} (F : Matrix (Fin n) (Fin n) ℝ)
    (g : Matrix (Fin n) (Fin 1) ℝ) (j i : Fin n) :
    buildU F g j i = (F ^ (i : ℕ) * g) j 0 := by
  rcases i with ⟨iv, hi⟩
  cases iv with
  | zero => simp [buildU]
  | succ m => simp [buildU, powLoop_eq_pow]

/-! ## C2 -/

/-- C2: for every n-by-n matrix F and n-by-1 vector g, the controllability
matrix built by checkContr has column 0 equal to g and column i equal to
F^i g for i = 1..n-1, so U = [g, Fg, ..., F^(n-1)g]; in particular for
F = [[0,1],[0,0]], g = [[0],[1]] it equals [[0,1],[1,0]] with determinant
-1, and the system is reported controllable. -/
theorem buildU_columns_and_canonical_example :
    (∀ (n : ℕ) (F : Matrix (Fin n) (Fin n) ℝ) (g : Matrix (Fin n) (Fin 1) ℝ)
      (j i : Fin n), buildU F g j i = (F ^ (i : ℕ) * g) j 0) ∧
    buildU !![(0 : ℝ), 1; 0, 0] !![(0 : ℝ); 1] = !![0, 1; 1, 0] ∧
    (buildU !![(0 : ℝ), 1; 0, 0] !![(0 : ℝ); 1]).det = -1 ∧
    ∀ z_sigma z_wd : ℝ,
      ((checkContr !![(0 : ℝ), 1; 0, 0] !![(0 : ℝ); 1] z_sigma z_wd).1).isSome := by
  have hU : buildU !![(0 : ℝ), 1; 0, 0] !![(0 : ℝ); 1] = !![0, 1; 1, 0] := by
    ext j i
    fin_cases j <;> fin_cases i <;>
      simp [buildU, powLoop, Matrix.mul_apply, Fin.sum_univ_two]
  have hdet : (buildU !![(0 : ℝ), 1; 0, 0] !![(0 : ℝ); 1]).det = -1 := by
    rw [hU, Matrix.det_fin_two_of]; norm_num
  refine ⟨fun n F g j i => buildU_apply F g j i, hU, hdet, fun z_sigma z_wd => ?_⟩
  simp [checkContr, hdet]

/-! ## C3 -/

/-- C3: whenever the controllability matrix is singular, checkContr computes
no gain: it takes the not-controllable branch (the printed diagnostic and
the scalar zeros bound to k, k_c, P, modeled as none) and returns the zero
determinant. -/
theorem checkContr_singular {n : ℕ} (F : Matrix (Fin n) (Fin n) ℝ)
    (g : Matrix (Fin n) (Fin 1) ℝ) (z_sigma z_wd : ℝ)
    (h : (buildU F g).det = 0) :
    checkContr F g z_sigma z_wd = (none, 0) := by
  simp [checkContr, h]

theorem checkContr_singular_witness :
    (buildU !![(1 : ℝ), 0; 0, 1] !![(0 : ℝ); 0]).det = 0 ∧
    checkContr !![(1 : ℝ), 0; 0, 1] !![(0 : ℝ); 0] 1 1 = (none, 0) := by
  have h : (buildU !![(1 : ℝ), 0; 0, 1] !![(0 : ℝ); 0]).det = 0 := by
    have hU : buildU !![(1 : ℝ), 0; 0, 1] !![(0 : ℝ); 0] = !![0, 0; 0, 0] := by
      ext j i
      fin_cases j <;> fin_cases i <;>
        simp [buildU, powLoop, Matrix.mul_apply, Fin.sum_univ_two]
    rw [hU, Matrix.det_fin_two_of]; norm_num
  exact ⟨h, checkContr_singular _ _ _ _ h⟩

/-! ## C4 -/

/-- C4 (code bug): whenever the observability matrix is singular, checkObs
does not terminate normally: the not-observable branch binds the two names
mc, mp to the three-element list [0, 0, 0], which raises ValueError, so no
detV is returned (modeled as none). -/
theorem checkObs_singular_raises {n : ℕ} (F : Matrix (Fin n) (Fin n) ℝ)
    (g : Matrix (Fin n) (Fin 1) ℝ) (c : Matrix (Fin 1) (Fin n) ℝ)
    (d z_sigma z_wd : ℝ) (h : (buildV F c).det = 0) :
    checkObs F g c d z_sigma z_wd = none := by
  simp [checkObs, h]

theorem checkObs_singular_raises_witness :
    (buildV !![(1 : ℝ), 0; 0, 1] !![(0 : ℝ), 0]).det = 0 ∧
    checkObs !![(1 : ℝ), 0; 0, 1] !![(0 : ℝ); 0] !![(0 : ℝ), 0] 0 1 1 = none := by
  have h : (buildV !![(1 : ℝ), 0; 0, 1] !![(0 : ℝ), 0]).det = 0 := by
    have hV : buildV !![(1 : ℝ), 0; 0, 1] !![(0 : ℝ), 0] = !![0, 0; 0, 0] := by
      ext i j
      fin_cases i <;> fin_cases j <;>
        simp [buildV, powLoop, Matrix.mul_apply, Fin.sum_univ_two]
    rw [hV, Matrix.det_fin_two_of]; norm_num
  exact ⟨h, checkObs_singular_raises _ _ _ _ _ _ h⟩

/-! ## C5 -/

/-- C5: calcDisc returns F = I + AT + (1/2)(AT)^2 and
g = T (I + (1/2)AT + (1/6)(AT)^2) b with c and d unchanged; for A = [[0]],
b = [[1]], T = 1 it returns F = [[1]] and g = [[1]]. -/
theorem calcDisc_series_form :
    (∀ (n : ℕ) (A : Matrix (Fin n) (Fin n) ℝ) (b : Matrix (Fin n) (Fin 1) ℝ)
      (c : Matrix (Fin 1) (Fin n) ℝ) (d T : ℝ),
      calcDisc A b c d T =
        (1 + T • A + (1 / 2 : ℝ) • (T • A) ^ 2,
         T • ((1 + (1 / 2 : ℝ) • (T • A) + (1 / 6 : ℝ) • (T • A) ^ 2) * b),
         c, d)) ∧
    calcDisc !![(0 : ℝ)] !![(1 : ℝ)] !![(1 : ℝ)] 0 1 = (!![1], !![1], !![1], 0) := by
  constructor
  · intro n A b c d T
    simp only [calcDisc, sq]
  · have hF : (1 + (1 : ℝ) • !![(0 : ℝ)] +
        (1 / 2 : ℝ) • (((1 : ℝ) • !![(0 : ℝ)]) * ((1 : ℝ) • !![(0 : ℝ)]))) = !![(1 : ℝ)] := by
      ext i j
      fin_cases i <;> fin_cases j <;>
        simp [Matrix.mul_apply, Fin.sum_univ_one, Matrix.one_apply]
    have hpsi : (1 + (1 / 2 : ℝ) • ((1 : ℝ) • !![(0 : ℝ)]) +
        (1 / 6 : ℝ) • (((1 : ℝ) • !![(0 : ℝ)]) * ((1 : ℝ) • !![(0 : ℝ)]))) = !![(1 : ℝ)] := by
      ext i j
      fin_cases i <;> fin_cases j <;>
        simp [Matrix.mul_apply, Fin.sum_univ_one, Matrix.one_apply]
    have hg : (1 : ℝ) • ((Matrix.of ![![(1 : ℝ)]] : Matrix (Fin 1) (Fin 1) ℝ) * !![(1 : ℝ)]) = !![(1 : ℝ)] := by
      ext i j
      fin_cases i <;> fin_cases j <;> simp [Matrix.mul_apply, Fin.sum_univ_one]
    simp only [calcDisc, hF, hpsi]
    refine Prod.ext ?_ (Prod.ext ?_ rfl)
    · rfl
    · show (1 : ℝ) • (!![(1 : ℝ)] * !![(1 : ℝ)]) = !![(1 : ℝ)]
      ext i j
      fin_cases i <;> fin_cases j <;> simp [Matrix.mul_apply, Fin.sum_univ_one]

/-! ## C6 -/

/-- C6: calcPoles returns exactly z_sigma = exp(sigma T) cos(wd T) and
z_wd = exp(sigma T) sin(wd T); for sigma > 0, T > 0 and wd = 0 it returns
(exp(sigma T), 0).  Being a Lean function of its arguments, the embedding
is pure by construction. -/
theorem calcPoles_formula (s_sigma s_wd T : ℝ) :
    calcPoles s_sigma s_wd T =
      (Real.exp (s_sigma * T) * Real.cos (s_wd * T),
       Real.exp (s_sigma * T) * Real.sin (s_wd * T)) ∧
    (0 < s_sigma → 0 < T → s_wd = 0 →
      calcPoles s_sigma s_wd T = (Real.exp (s_sigma * T), 0)) := by
  refine ⟨rfl, fun _ _ hwd => ?_⟩
  simp [calcPoles, hwd]

theorem calcPoles_formula_witness :
    calcPoles 1 0 1 =
      (Real.exp (1 * 1) * Real.cos (0 * 1), Real.exp (1 * 1) * Real.sin (0 * 1)) ∧
    calcPoles 1 0 1 = (Real.exp (1 * 1), 0) :=
  ⟨(calcPoles_formula 1 0 1).1, (calcPoles_formula 1 0 1).2 one_pos one_pos rfl⟩

end FeedbackObserver

namespace FeedbackObserver

/-! ## C8 -/

/-- C8: when wn and zeta are both zero and sigma is nonzero after steps 1-2
(for instance because ts was entered, making sigma = 4/ts), step 3 of
calcRequirements computes wn = sigma/zeta with zeta = 0 and raises a
division-by-zero condition instead of returning normally. -/
theorem calcRequirements_zero_zeta_raises (wn zeta ts tr tp wd sigma : ℝ)
    (hwn : wn = 0) (hz : zeta = 0)
    (hs : (if ts ≠ 0 ∧ sigma = 0 then 4 / ts else sigma) ≠ 0) :
    calcRequirements (wn, zeta, ts, tr, tp, wd, sigma) = none := by
  subst hwn hz
  have key : calcReqSteps14 0 0 ts tp wd sigma = none := by
    by_cases hc : ts ≠ 0 ∧ sigma = 0
    · have hts : ¬ts = 0 := hc.1
      have hs4 : ¬(4 : ℝ) / ts = 0 := by simpa [hc] using hs
      by_cases hc2 : tp ≠ 0 ∧ wd = 0
      · have htp : ¬tp = 0 := hc2.1
        simp [calcReqSteps14, pydiv, hc, hts, hc2, htp, hs4]
      · simp [calcReqSteps14, pydiv, hc, hts, hc2, hs4]
    · have hsig : ¬sigma = 0 := by simpa [hc] using hs
      by_cases hc2 : tp ≠ 0 ∧ wd = 0
      · have htp : ¬tp = 0 := hc2.1
        simp [calcReqSteps14, pydiv, hc, hc2, htp, hsig]
      · simp [calcReqSteps14, pydiv, hc, hc2, hsig]
  simp [calcRequirements, key]

theorem calcRequirements_zero_zeta_raises_witness :
    ((if (2 : ℝ) ≠ 0 ∧ (0 : ℝ) = 0 then 4 / (2 : ℝ) else (0 : ℝ)) ≠ 0) ∧
    calcRequirements (0, 0, 2, 0, 0, 0, 0) = none :=
  ⟨by norm_num,
   calcRequirements_zero_zeta_raises 0 0 2 0 0 0 0 rfl rfl (by norm_num)⟩

/-! ## C7 -/

/-- C7: for every requirements input such that after steps 1-4 both wn and
zeta are nonzero, step 5 is authoritative: calcRequirements returns
sigma = zeta wn, wd = wn sqrt(1 - zeta^2), ts = 4/sigma, tp = pi/wd and
tr = 1.8/wn, overwriting any sigma, wd, ts, tp, tr from the input or from
steps 1-2. -/
theorem calcRequirements_step5_overwrites
    (wn zeta ts tr tp wd sigma wn1 zeta1 sigma1 wd1 : ℝ)
    (h14 : calcReqSteps14 wn zeta ts tp wd sigma = some (wn1, zeta1, sigma1, wd1))
    (hwn : wn1 ≠ 0) (hz : zeta1 ≠ 0) :
    calcRequirements (wn, zeta, ts, tr, tp, wd, sigma) =
      some (wn1, zeta1, 4 / (zeta1 * wn1), 1.8 / wn1,
        Real.pi / (wn1 * Real.sqrt (1 - zeta1 ^ 2)),
        wn1 * Real.sqrt (1 - zeta1 ^ 2), zeta1 * wn1) := by
  have hs2 : ¬zeta1 * wn1 = 0 := mul_ne_zero hz hwn
  simp [calcRequirements, h14, hwn, hz, pydiv, hs2]

theorem calcRequirements_step5_overwrites_witness :
    calcReqSteps14 2 0.5 0 0 0 0 = some (2, 0.5, 0, 0) ∧
    calcRequirements (2, 0.5, 0, 0, 0, 0, 0) =
      some (2, 0.5, 4, 0.9, Real.pi / Real.sqrt 3, Real.sqrt 3, 1) := by
  have h14 : calcReqSteps14 2 0.5 0 0 0 0 = some (2, 0.5, 0, 0) := by
    norm_num [calcReqSteps14, pydiv]
  have hsq : (2 : ℝ) * Real.sqrt (1 - 0.5 ^ 2) = Real.sqrt 3 := by
    have h34 : (1 - (0.5 : ℝ) ^ 2) = 3 / 4 := by norm_num
    have h4 : Real.sqrt 4 = 2 := by
      rw [show (4 : ℝ) = 2 ^ 2 by norm_num,
        Real.sqrt_sq (by norm_num : (0 : ℝ) ≤ 2)]
    rw [h34, Real.sqrt_div (by norm_num : (0 : ℝ) ≤ 3) 4, h4]
    ring
  refine ⟨h14, ?_⟩
  have h := calcRequirements_step5_overwrites 2 0.5 0 0 0 0 0 2 0.5 0 0 h14
    (by norm_num) (by norm_num)
  rw [h, hsq]
  norm_num

/-! ## C9 -/

/-- C9 (code bug): with the radio selection Set discrete (v = 1), calcModel
publishes nothing: readDisc binds e_c to disc_entries[3] and e_d to
disc_entries[0], so d = float(e_d.get()) calls get on the F widget array
and raises AttributeError, whatever values were entered. -/
theorem calcModel_discrete_raises {n : ℕ} (cont_entries : Fin 4 → EntryVal n)
    (F : Matrix (Fin n) (Fin n) ℝ) (g : Matrix (Fin n) (Fin 1) ℝ)
    (c : Matrix (Fin 1) (Fin n) ℝ) (d : ℝ) (T : ℝ) :
    calcModel 1 cont_entries (discEntries F g c d) T = none := by
  simp [calcModel, readDisc, discEntries, EntryVal.getSingle]

/-! ## C10 -/

/-- C10: readZPoles hands the raw entry texts to setPoles without any float
conversion, so a getPoles call after readZPoles returns the exact strings
entered; processPoles by contrast parses the entry texts and stores the
numbers computed from them. -/
theorem readZPoles_stores_raw_text (z1 z2 t : String) (ve : ValueExchange) :
    (readZPoles z1 z2 t ve).getPoles = (PyVal.str z1, PyVal.str z2, PyVal.str t) ∧
    (∀ (parseFloat : String → Option ℝ) (s1 s2 st : String) (x1 x2 x3 : ℝ)
      (ve2 : ValueExchange),
      parseFloat s1 = some x1 → parseFloat s2 = some x2 → parseFloat st = some x3 →
      processPoles parseFloat s1 s2 st ve2 =
        some ((clearPoles x3 ve2).setPoles (PyVal.num ((calcPoles x1 x2 x3).1))
          (PyVal.num ((calcPoles x1 x2 x3).2)) (PyVal.num x3))) := by
  refine ⟨rfl, fun parseFloat s1 s2 st x1 x2 x3 ve2 h1 h2 h3 => ?_⟩
  simp [processPoles, readPoles, h1, h2, h3, calcPoles]

theorem readZPoles_stores_raw_text_witness :
    (readZPoles "a" "b" "c" initValueExchange).getPoles =
      (PyVal.str "a", PyVal.str "b", PyVal.str "c") ∧
    processPoles (fun _ => some 1) "a" "b" "c" initValueExchange =
      some ((clearPoles 1 initValueExchange).setPoles
        (PyVal.num ((calcPoles 1 1 1).1)) (PyVal.num ((calcPoles 1 1 1).2))
        (PyVal.num 1)) :=
  ⟨(readZPoles_stores_raw_text "a" "b" "c" initValueExchange).1,
   (readZPoles_stores_raw_text "a" "b" "c" initValueExchange).2
     (fun _ => some 1) "a" "b" "c" 1 1 1 initValueExchange rfl rfl rfl⟩

end FeedbackObserver

namespace FeedbackObserver

open Matrix Polynomial

/-! ## C1 helper lemmas -/

theorem alphaCoeff_fin_two (F : Matrix (Fin 2) (Fin 2) ℝ) :
    alphaCoeff F 0 = F 0 0 * F 1 1 - F 0 1 * F 1 0 ∧
    alphaCoeff F 1 = -(F 0 0 + F 1 1) := by
  have h : Matrix.charpoly F =
      X ^ 2 - C (F 0 0) * X - C (F 1 1) * X +
        (C (F 0 0) * C (F 1 1) - C (F 0 1) * C (F 1 0)) := by
    rw [Matrix.charpoly, Matrix.det_fin_two, Matrix.charmatrix_apply_eq,
      Matrix.charmatrix_apply_eq,
      Matrix.charmatrix_apply_ne F 0 1 (by decide),
      Matrix.charmatrix_apply_ne F 1 0 (by decide)]
    ring
  constructor
  · rw [alphaCoeff, h]
    simp only [coeff_add, coeff_sub, coeff_X_pow, coeff_C, coeff_C_mul, coeff_X_zero]
    norm_num
  · rw [alphaCoeff, h]
    simp only [coeff_add, coeff_sub, coeff_X_pow, coeff_C, coeff_C_mul, coeff_X_one]
    norm_num
    ring

theorem aCoeff_fin_two (z_sigma z_wd : ℝ) :
    aCoeff z_sigma z_wd 0 = z_sigma ^ 2 + z_wd ^ 2 ∧
    aCoeff z_sigma z_wd 1 = -(2 * z_sigma) := by
  have hsq : (C (Complex.I * (z_wd : ℂ))) ^ 2 = C (-((z_wd : ℂ) ^ 2)) := by
    rw [← map_pow]
    congr 1
    rw [mul_pow, Complex.I_sq]
    ring
  have h : cl_eqn z_sigma z_wd =
      X ^ 2 - C (z_sigma : ℂ) * X - C (z_sigma : ℂ) * X +
        (C (z_sigma : ℂ) * C (z_sigma : ℂ) + C (z_wd : ℂ) * C (z_wd : ℂ)) := by
    unfold cl_eqn
    have expand : (X - C (z_sigma : ℂ) - C (Complex.I * (z_wd : ℂ))) *
        (X - C (z_sigma : ℂ) + C (Complex.I * (z_wd : ℂ))) =
        (X - C (z_sigma : ℂ)) ^ 2 - (C (Complex.I * (z_wd : ℂ))) ^ 2 := by ring
    rw [expand, hsq]
    simp only [C_neg, C_pow]
    ring
  constructor
  · rw [aCoeff, h]
    simp only [coeff_add, coeff_sub, coeff_X_pow, coeff_C, coeff_C_mul, coeff_X_zero]
    norm_num
    ring
  · rw [aCoeff, h]
    simp only [coeff_add, coeff_sub, coeff_X_pow, coeff_C, coeff_C_mul, coeff_X_one]
    norm_num
    ring

theorem calcK_fin_two (p q r s z_sigma z_wd : ℝ) (U : Matrix (Fin 2) (Fin 2) ℝ) :
    calcK !![p, q; r, s] z_sigma z_wd U =
      (!![z_sigma ^ 2 + z_wd ^ 2 - (p * s - q * r), -(2 * z_sigma) - -(p + s)] *
         (U * !![-(p + s), 1; 1, 0])⁻¹,
       !![z_sigma ^ 2 + z_wd ^ 2 - (p * s - q * r), -(2 * z_sigma) - -(p + s)],
       U * !![-(p + s), 1; 1, 0]) := by
  have ha0 : alphaCoeff !![p, q; r, s] 0 = p * s - q * r := by
    have := (alphaCoeff_fin_two !![p, q; r, s]).1
    simpa using this
  have ha1 : alphaCoeff !![p, q; r, s] 1 = -(p + s) := by
    have := (alphaCoeff_fin_two !![p, q; r, s]).2
    simpa using this
  have hkc : (Matrix.of fun (_ : Fin 1) (i : Fin 2) =>
      aCoeff z_sigma z_wd (i : ℕ) - alphaCoeff !![p, q; r, s] (i : ℕ)) =
      !![z_sigma ^ 2 + z_wd ^ 2 - (p * s - q * r), -(2 * z_sigma) - -(p + s)] := by
    ext i j
    fin_cases i
    fin_cases j
    · simp [(aCoeff_fin_two z_sigma z_wd).1, ha0]
    · simp [(aCoeff_fin_two z_sigma z_wd).2, ha1]
  have hUc : (Matrix.of fun (i j : Fin 2) =>
      if (j : ℕ) < 2 - (i : ℕ) - 1 then alphaCoeff !![p, q; r, s] ((j : ℕ) + (i : ℕ) + 1)
      else if (j : ℕ) = 2 - (i : ℕ) - 1 then 1 else 0) =
      !![-(p + s), 1; 1, 0] := by
    ext i j
    fin_cases i <;> fin_cases j <;> simp [ha1]
  simp only [calcK]
  rw [hkc, hUc]

end FeedbackObserver

namespace FeedbackObserver

open Matrix Polynomial

theorem conj_closed_loop_det {n : ℕ} (F P Fc : Matrix (Fin n) (Fin n) ℝ)
    (g gc : Matrix (Fin n) (Fin 1) ℝ) (kc : Matrix (Fin 1) (Fin n) ℝ) (z : ℝ)
    (hFP : F * P = P * Fc) (hg : P * gc = g) (hPdet : P.det ≠ 0) :
    (z • (1 : Matrix (Fin n) (Fin n) ℝ) - (F - g * (kc * P⁻¹))).det =
    (z • (1 : Matrix (Fin n) (Fin n) ℝ) - (Fc - gc * kc)).det := by
  have hPU : IsUnit P.det := isUnit_iff_ne_zero.mpr hPdet
  have hPinv : P * P⁻¹ = 1 := Matrix.mul_nonsing_inv P hPU
  have hgk : g * (kc * P⁻¹) = P * (gc * kc) * P⁻¹ := by
    rw [← hg]
    simp only [Matrix.mul_assoc]
  have hFconj : F = P * Fc * P⁻¹ := by
    calc F = F * (P * P⁻¹) := by rw [hPinv, Matrix.mul_one]
    _ = F * P * P⁻¹ := by rw [Matrix.mul_assoc]
    _ = P * Fc * P⁻¹ := by rw [hFP]
  have hid : (z • (1 : Matrix (Fin n) (Fin n) ℝ)) =
      P * (z • (1 : Matrix (Fin n) (Fin n) ℝ)) * P⁻¹ := by
    rw [mul_smul_comm, Matrix.mul_one, smul_mul_assoc, hPinv]
  have key : z • (1 : Matrix (Fin n) (Fin n) ℝ) - (F - g * (kc * P⁻¹)) =
      P * (z • (1 : Matrix (Fin n) (Fin n) ℝ) - (Fc - gc * kc)) * P⁻¹ := by
    rw [Matrix.mul_sub, Matrix.sub_mul, Matrix.mul_sub, Matrix.sub_mul, ← hid, hgk,
      hFconj]
  rw [key, Matrix.det_mul, Matrix.det_mul, Matrix.det_nonsing_inv, Ring.inverse_eq_inv]
  field_simp

theorem closed_loop_det_scalar (p q r s g0 g1 z_sigma z_wd z : ℝ)
    (h : (buildU !![p, q; r, s] !![g0; g1]).det ≠ 0) :
    (z • (1 : Matrix (Fin 2) (Fin 2) ℝ) -
      (!![p, q; r, s] - !![g0; g1] *
        (calcK !![p, q; r, s] z_sigma z_wd (buildU !![p, q; r, s] !![g0; g1])).1)).det =
    z ^ 2 - 2 * z_sigma * z + (z_sigma ^ 2 + z_wd ^ 2) := by
  have hU : buildU !![p, q; r, s] !![g0; g1] =
      !![g0, p * g0 + q * g1; g1, r * g0 + s * g1] := by
    ext j i
    fin_cases j <;> fin_cases i <;>
      simp [buildU, powLoop, Matrix.mul_apply, Fin.sum_univ_two]
  have hk : (calcK !![p, q; r, s] z_sigma z_wd (buildU !![p, q; r, s] !![g0; g1])).1 =
      !![z_sigma ^ 2 + z_wd ^ 2 - (p * s - q * r), -(2 * z_sigma) - -(p + s)] *
        ((!![g0, p * g0 + q * g1; g1, r * g0 + s * g1] : Matrix (Fin 2) (Fin 2) ℝ) *
          !![-(p + s), 1; 1, 0])⁻¹ := by
    rw [calcK_fin_two, hU]
  have hdetU :
      (!![g0, p * g0 + q * g1; g1, r * g0 + s * g1] : Matrix (Fin 2) (Fin 2) ℝ).det ≠ 0 := by
    rw [hU] at h
    exact h
  have hUcdet : (!![-(p + s), 1; 1, 0] : Matrix (Fin 2) (Fin 2) ℝ).det = -1 := by
    rw [Matrix.det_fin_two_of]
    ring
  have hPdet :
      ((!![g0, p * g0 + q * g1; g1, r * g0 + s * g1] : Matrix (Fin 2) (Fin 2) ℝ) *
        !![-(p + s), 1; 1, 0]).det ≠ 0 := by
    rw [Matrix.det_mul, hUcdet]
    exact mul_ne_zero hdetU (by norm_num)
  have hFP : !![p, q; r, s] *
      ((!![g0, p * g0 + q * g1; g1, r * g0 + s * g1] : Matrix (Fin 2) (Fin 2) ℝ) *
        !![-(p + s), 1; 1, 0]) =
      ((!![g0, p * g0 + q * g1; g1, r * g0 + s * g1] : Matrix (Fin 2) (Fin 2) ℝ) *
        !![-(p + s), 1; 1, 0]) * !![0, 1; -(p * s - q * r), p + s] := by
    ext i j
    fin_cases i <;> fin_cases j <;>
      (simp [Matrix.mul_apply, Fin.sum_univ_two] <;> ring)
  have hg : ((!![g0, p * g0 + q * g1; g1, r * g0 + s * g1] : Matrix (Fin 2) (Fin 2) ℝ) *
      !![-(p + s), 1; 1, 0]) * !![(0 : ℝ); 1] = !![g0; g1] := by
    ext i j
    fin_cases i <;> fin_cases j <;>
      (simp [Matrix.mul_apply, Fin.sum_univ_two] <;> ring)
  rw [hk, conj_closed_loop_det !![p, q; r, s] _
    !![0, 1; -(p * s - q * r), p + s] !![g0; g1] !![(0 : ℝ); 1] _ z hFP hg hPdet]
  rw [Matrix.det_fin_two]
  simp [Matrix.sub_apply, Matrix.smul_apply, Matrix.one_apply, Matrix.mul_apply,
    Fin.sum_univ_two]
  ring

end FeedbackObserver

namespace FeedbackObserver

open Matrix Polynomial

/-! ## C1 -/

/-- C1: for every 2-by-2 matrix F, 2-by-1 vector g with nonsingular
controllability matrix U = [g, Fg], and every pole pair (z_sigma, z_wd),
checkContr returns the gain computed by calcK, and that gain places the
closed-loop poles at z_sigma plus or minus j z_wd:
det(zI - (F - g k)) = z^2 - 2 z_sigma z + (z_sigma^2 + z_wd^2). -/
theorem checkContr_places_poles (F : Matrix (Fin 2) (Fin 2) ℝ)
    (g : Matrix (Fin 2) (Fin 1) ℝ) (z_sigma z_wd : ℝ)
    (h : (buildU F g).det ≠ 0) :
    (checkContr F g z_sigma z_wd).1 = some (calcK F z_sigma z_wd (buildU F g)) ∧
    ∀ z : ℝ,
      (z • (1 : Matrix (Fin 2) (Fin 2) ℝ) -
        (F - g * (calcK F z_sigma z_wd (buildU F g)).1)).det =
      z ^ 2 - 2 * z_sigma * z + (z_sigma ^ 2 + z_wd ^ 2) := by
  constructor
  · simp [checkContr, h]
  · intro z
    have hF : F = !![F 0 0, F 0 1; F 1 0, F 1 1] := Matrix.eta_fin_two F
    have hgeta : g = !![g 0 0; g 1 0] := by
      ext i j
      fin_cases i <;> fin_cases j <;> rfl
    rw [hF, hgeta] at h ⊢
    exact closed_loop_det_scalar (F 0 0) (F 0 1) (F 1 0) (F 1 1) (g 0 0) (g 1 0)
      z_sigma z_wd z h

theorem checkContr_places_poles_witness :
    (buildU !![(0 : ℝ), 1; 0, 0] !![(0 : ℝ); 1]).det ≠ 0 ∧
    (checkContr !![(0 : ℝ), 1; 0, 0] !![(0 : ℝ); 1] 1 2).1 =
      some (calcK !![(0 : ℝ), 1; 0, 0] 1 2
        (buildU !![(0 : ℝ), 1; 0, 0] !![(0 : ℝ); 1])) ∧
    ((3 : ℝ) • (1 : Matrix (Fin 2) (Fin 2) ℝ) -
      (!![(0 : ℝ), 1; 0, 0] - !![(0 : ℝ); 1] *
        (calcK !![(0 : ℝ), 1; 0, 0] 1 2
          (buildU !![(0 : ℝ), 1; 0, 0] !![(0 : ℝ); 1])).1)).det =
      3 ^ 2 - 2 * 1 * 3 + (1 ^ 2 + 2 ^ 2) := by
  have hUeq : buildU !![(0 : ℝ), 1; 0, 0] !![(0 : ℝ); 1] = !![0, 1; 1, 0] := by
    ext j i
    fin_cases j <;> fin_cases i <;>
      simp [buildU, powLoop, Matrix.mul_apply, Fin.sum_univ_two]
  have h : (buildU !![(0 : ℝ), 1; 0, 0] !![(0 : ℝ); 1]).det ≠ 0 := by
    rw [hUeq, Matrix.det_fin_two_of]
    norm_num
  exact ⟨h, (checkContr_places_poles _ _ 1 2 h).1,
    (checkContr_places_poles _ _ 1 2 h).2 3⟩

end FeedbackObserver
